import Mathlib

/-!
# Verification of the Aerodrome LP agent workflow orchestrator

Shallow embedding of the TypeScript sources of `aerodrome-lp-agent`:

* `src/src/utils/utils.ts` — `parseUnits` / `formatUnits` (ethers v6 decimal
  string codec), `calculateMinAmount`;
* `src/src/services/TokenService.ts` — `approve` (idempotent-approval
  protocol), `transferFrom`, `transfer`;
* `src/src/services/AerodromeService.ts` — `swapTokens`, `addLiquidity`;
* `src/unnamed/part_002` — `GaugeService` (`stakeLPTokens`,
  `unstakeLPTokens`, `getStakedBalance`);
* `src/src/services/LPAgent.ts` — `executeFullDeposit`, `executeWithdraw`,
  `getWithdrawableAmount`, `withdrawAll`.

Modelling conventions:

* TypeScript `bigint` is embedded as `Int` (exact arbitrary-precision
  integers); `bigint` division truncates toward zero, so it is embedded as
  `Int.tdiv`, never as `Int`'s `/` (which is Euclidean).
* Every remote call (reads and writes) is an oracle field of an environment
  structure holding `Except Err _`: `.ok` models the call settling
  successfully, `.error e` models the call (or the await of its
  confirmation) throwing `e`.  A write is committed iff its oracle field is
  `.ok` and execution reaches it; each workflow function returns, next to
  the TypeScript return value, the chronological list of committed
  on-ledger writes, so that theorems can speak about what was actually
  submitted to the ledger.  The synchronous `await`-until-confirmed
  discipline of the source is embedded by the strict sequencing of these
  oracle consultations.
* `try { ... } catch (error) { return {success:false, txHashes, error} }`
  is embedded by propagating the first `.error` into the failure result,
  together with whatever `txHashes` had been accumulated.
-/

/-- Error payloads carried by thrown exceptions (`String(error)` in TS). -/
abbrev Err := String

/-- Transaction identifiers (`receipt.hash` in TS). -/
abbrev Tx := String

/-- The tokens the workflows touch: the stablecoin, the two pool
constituents, and the pool's LP token. -/
inductive TokenKind
  | usdc
  | weth
  | virt
  | lp
deriving DecidableEq, Repr

/-- A committed on-ledger write, as submitted by the agent.  Each
constructor records the economically relevant arguments of the submitted
transaction together with its identifier. -/
inductive WriteOp
  | transferFromW (amount : Int) (tx : Tx)
  | approveW (token : TokenKind) (amount : Int) (tx : Tx)
  | swapW (amountIn amountOutMin : Int) (tx : Tx)
  | addLiquidityW (amountADesired amountBDesired amountAMin amountBMin : Int) (tx : Tx)
  | removeLiquidityW (lpAmount : Int) (tx : Tx)
  | stakeW (amount : Int) (tx : Tx)
  | unstakeW (amount : Int) (tx : Tx)
  | transferW (amount : Int) (tx : Tx)
deriving DecidableEq, Repr

/-- The transaction identifier of a committed write. -/
def WriteOp.txId : WriteOp → Tx
  | .transferFromW _ tx => tx
  | .approveW _ _ tx => tx
  | .swapW _ _ tx => tx
  | .addLiquidityW _ _ _ _ tx => tx
  | .removeLiquidityW _ tx => tx
  | .stakeW _ tx => tx
  | .unstakeW _ tx => tx
  | .transferW _ tx => tx

/-! ## Decimal string codec (`src/src/utils/utils.ts` delegating to ethers v6)

`formatUnits(value, decimals)` renders the exact decimal representation of
`value / 10^decimals`: the whole part without leading zeros, a dot, and the
fraction digits with trailing zeros trimmed but at least one digit kept
(`"0.0"` for zero).  `parseUnits(value, decimals)` splits on the dot,
right-pads the fraction to `decimals` digits, rejects a fraction longer
than `decimals`, any character other than digits and one dot (an optional
leading `-` aside), and an empty input; a rejected input makes ethers
throw, embedded here as `none`. -/

/-- The character of the decimal digit `d`. -/
def digitChar (d : Nat) : Char := Char.ofNat (48 + d)

/-- The decimal value of a digit character. -/
def digitVal (c : Char) : Nat := c.toNat - 48

/-- Value of a most-significant-first digit list. -/
def valMSD (ds : List Nat) : Nat := ds.foldl (fun a d => a * 10 + d) 0

/-- Decimal digits of `n`, most significant first, `[0]` for zero. -/
def decDigits (n : Nat) : List Nat :=
  if n = 0 then [0] else (Nat.digits 10 n).reverse

/-- Decimal rendering of a natural number (`BigInt.toString`). -/
def natDecString (n : Nat) : String := ⟨(decDigits n).map digitChar⟩

/-- The `d` fraction digits of `v` (the last `d` decimal digits of `v`,
left-padded with zeros), most significant first. -/
def fracDigits (v d : Nat) : List Nat :=
  let raw := (Nat.digits 10 (v % 10 ^ d)).reverse
  List.replicate (d - raw.length) 0 ++ raw

/-- Trim trailing zero digits. -/
def trimZeros (ds : List Nat) : List Nat := (ds.reverse.dropWhile (· = 0)).reverse

/-- `formatUnits` on a non-negative value: exact decimal string with the
fraction's trailing zeros trimmed, keeping at least one fraction digit. -/
def formatUnitsNat (v d : Nat) : String :=
  if d = 0 then natDecString v
  else
    let f := trimZeros (fracDigits v d)
    let f := if f.isEmpty then [0] else f
    natDecString (v / 10 ^ d) ++ "." ++ ⟨f.map digitChar⟩

/-- `formatUnits` (`utils.ts`, delegating to `ethers.formatUnits`). -/
def formatUnits (x : Int) (d : Nat) : String :=
  if x < 0 then "-" ++ formatUnitsNat x.natAbs d else formatUnitsNat x.natAbs d

/-- Parse a non-empty all-digit character list. -/
def parseDecDigits (cs : List Char) : Option Nat :=
  cs.foldl
    (fun acc c => acc.bind fun n => if c.isDigit then some (n * 10 + digitVal c) else none)
    (if cs.isEmpty then none else some 0)

/-- `parseUnits` on an unsigned decimal string. -/
def parseUnitsNat (s : String) (d : Nat) : Option Nat :=
  match s.toList.span (fun c => c ≠ '.') with
  | (w, []) => (parseDecDigits w).map (· * 10 ^ d)
  | (w, _ :: f) =>
    if f.contains '.' then none
    else if w.isEmpty && f.isEmpty then none
    else if d < f.length then none
    else
      match (if w.isEmpty then some 0 else parseDecDigits w),
            (if f.isEmpty then some 0 else parseDecDigits f) with
      | some wv, some fv => some (wv * 10 ^ d + fv * 10 ^ (d - f.length))
      | _, _ => none

/-- `parseUnits` (`utils.ts`, delegating to `ethers.parseUnits`). -/
def parseUnits (s : String) (d : Nat) : Option Int :=
  if s.toList.head? = some '-' then
    (parseUnitsNat (String.mk s.toList.tail) d).map (fun n => -(n : Int))
  else
    (parseUnitsNat s d).map (fun n => (n : Int))

/-- `calculateMinAmount` (`utils.ts`): the TS function receives the
tolerance as a float percentage and converts it with
`BigInt(Math.floor(slippage * 100))`; the embedding is parameterized by the
resulting integer basis points (float rounding is outside this model) and
performs the exact `bigint` computation
`(amount * (10000n - slippageBps)) / 10000n`, whose division truncates
toward zero. -/
def calculateMinAmount (amount : Int) (slippageBps : Int) : Int :=
  Int.tdiv (amount * (10000 - slippageBps)) 10000

/-! ## Token service (`TokenService.ts`) -/

/-- Return value of `TokenService.approve`: the `"no-tx-needed"` sentinel
or the confirmed approval transaction's identifier. -/
inductive ApproveResult
  | noTxNeeded
  | txHash (h : Tx)
deriving DecidableEq, Repr

/-- `TokenService.approve(token, spender, amount)`: reads the current
allowance; if it already covers `amount`, performs no write and returns the
sentinel; otherwise, if the current allowance is nonzero, first submits an
approval for 0 and awaits its confirmation, then submits the approval for
`amount`, awaits it, and returns that transaction's identifier (only the
final write's identifier is returned — a committed reset write is not).
`allowR` is the allowance read, `resetR`/`setR` the outcomes of the two
potential writes. -/
def approveRun (allowR : Except Err Int) (resetR setR : Except Err Tx)
    (token : TokenKind) (amount : Int) :
    Except Err ApproveResult × List WriteOp :=
  match allowR with
  | .error e => (.error e, [])
  | .ok al =>
    if amount ≤ al then (.ok .noTxNeeded, [])
    else if 0 < al then
      match resetR with
      | .error e => (.error e, [])
      | .ok r =>
        match setR with
        | .error e => (.error e, [.approveW token 0 r])
        | .ok s => (.ok (.txHash s), [.approveW token 0 r, .approveW token amount s])
    else
      match setR with
      | .error e => (.error e, [])
      | .ok s => (.ok (.txHash s), [.approveW token amount s])

/-! ## Exchange service (`AerodromeService.ts`) -/

/-- `AerodromeService.swapTokens`: tries to quote the route
(`getAmountsOut`); on a quote, the submitted minimum output is
`calculateMinAmount(quote, slippage)`; if no quote is obtainable the
minimum output falls back to `1n`.  Then submits
`swapExactTokensForTokens(amountIn, amountOutMin, …)` and awaits it. -/
def swapRun (quoteR : Except Err Int) (swapR : Except Err Tx)
    (amountIn : Int) (slippageBps : Int) :
    Except Err Tx × List WriteOp :=
  let amountOutMin : Int :=
    match quoteR with
    | .ok q => calculateMinAmount q slippageBps
    | .error _ => 1
  match swapR with
  | .error e => (.error e, [])
  | .ok h => (.ok h, [.swapW amountIn amountOutMin h])

/-- `AerodromeService.addLiquidity`: submits `addLiquidity` with both
desired amounts and **zero** minimum amounts, awaits confirmation, then
re-queries the recipient's LP-token balance (`balanceOf(to)`, the read
`lpBalR`) and returns that balance as the `liquidity` field.
`receiptLogsLiquidity` is the amount that parsing the receipt's event logs
would have yielded (the source keeps that former approach only as a
comment); the function ignores it. -/
def addLiquidityRun (addR : Except Err Tx) (lpBalR : Except Err Int)
    (receiptLogsLiquidity : Int) (amountADesired amountBDesired : Int) :
    Except Err (Tx × Int) × List WriteOp :=
  match addR with
  | .error e => (.error e, [])
  | .ok h =>
    match lpBalR with
    | .error e => (.error e, [.addLiquidityW amountADesired amountBDesired 0 0 h])
    | .ok bal => (.ok (h, bal), [.addLiquidityW amountADesired amountBDesired 0 0 h])

/-! ## Deposit workflow (`LPAgent.executeFullDeposit`) -/

/-- Oracle environment of one `executeFullDeposit` run: one field per
remote call of the workflow, in program order.  The three leading fields
are facts about the ledger that the workflow *could* consult but never
reads (the user's stablecoin balance, the operator's native balance, and
whether pool discovery resolved a live pool address); they are carried so
that precondition statements can refer to them. -/
structure DepositEnv where
  userUsdcBalance : Int
  agentEthWei : Int
  poolResolved : Bool
  transferFromR : Except Err Tx
  usdcAllowance : Except Err Int
  usdcResetR : Except Err Tx
  usdcApproveR : Except Err Tx
  wethQuote : Except Err Int
  wethSwapR : Except Err Tx
  virtQuote : Except Err Int
  virtSwapR : Except Err Tx
  wethBalanceR : Except Err Int
  virtBalanceR : Except Err Int
  wethAllowance : Except Err Int
  wethResetR : Except Err Tx
  wethApproveR : Except Err Tx
  virtAllowance : Except Err Int
  virtResetR : Except Err Tx
  virtApproveR : Except Err Tx
  addLiqR : Except Err Tx
  lpBalanceR : Except Err Int
  receiptLogsLiquidity : Int
  lpAllowance : Except Err Int
  lpResetR : Except Err Tx
  lpApproveR : Except Err Tx
  stakeR : Except Err Tx

/-- `DepositResult` (`types/index.ts`). -/
structure DepositResult where
  success : Bool
  txHashes : List Tx
  stakedLPAmount : String
  error : Option Err
deriving DecidableEq, Repr

/-- Error message of a rejected decimal amount string (`ethers.parseUnits`
throwing before any step runs; the exact wording is ethers-internal). -/
def invalidAmountMsg : Err := "invalid decimal value"

/-- `LPAgent.executeFullDeposit(params)`, returning the `DepositResult`
and the chronological list of committed on-ledger writes.

Transcription of `src/src/services/LPAgent.ts` lines 34–165: parse the
amount at 6 decimals and halve it with `bigint` division; transfer in
(push); approve the stablecoin for the router (push unless the sentinel);
swap each half (push each); re-read both constituent balances; approve
both constituents for the router (the returned identifiers are
**discarded** — never pushed); add liquidity (push) obtaining the re-queried
LP balance; approve the LP token for the gauge (push unless the sentinel);
stake (push).  Any throw is caught and surfaced raw next to the `txHashes`
accumulated so far; nothing further is submitted. -/
def executeFullDeposit (env : DepositEnv) (usdcAmount : String) (slippageBps : Int) :
    DepositResult × List WriteOp :=
  match parseUnits usdcAmount 6 with
  | none => (⟨false, [], "0", some invalidAmountMsg⟩, [])
  | some usdcAmountBigInt =>
    let halfUsdc := Int.tdiv usdcAmountBigInt 2
    match env.transferFromR with
    | .error e => (⟨false, [], "0", some e⟩, [])
    | .ok t1 =>
      let tr1 := [WriteOp.transferFromW usdcAmountBigInt t1]
      match approveRun env.usdcAllowance env.usdcResetR env.usdcApproveR .usdc usdcAmountBigInt with
      | (.error e, w) => (⟨false, [t1], "0", some e⟩, tr1 ++ w)
      | (.ok ar, w) =>
        let tx2 := [t1] ++ (match ar with | .noTxNeeded => [] | .txHash h => [h])
        let tr2 := tr1 ++ w
        match swapRun env.wethQuote env.wethSwapR halfUsdc slippageBps with
        | (.error e, w) => (⟨false, tx2, "0", some e⟩, tr2 ++ w)
        | (.ok s1, w) =>
          let tx3 := tx2 ++ [s1]
          let tr3 := tr2 ++ w
          match swapRun env.virtQuote env.virtSwapR halfUsdc slippageBps with
          | (.error e, w) => (⟨false, tx3, "0", some e⟩, tr3 ++ w)
          | (.ok s2, w) =>
            let tx4 := tx3 ++ [s2]
            let tr4 := tr3 ++ w
            match env.wethBalanceR with
            | .error e => (⟨false, tx4, "0", some e⟩, tr4)
            | .ok wethBalance =>
              match env.virtBalanceR with
              | .error e => (⟨false, tx4, "0", some e⟩, tr4)
              | .ok virtBalance =>
                match approveRun env.wethAllowance env.wethResetR env.wethApproveR .weth wethBalance with
                | (.error e, w) => (⟨false, tx4, "0", some e⟩, tr4 ++ w)
                | (.ok _, w) =>
                  let tr5 := tr4 ++ w
                  match approveRun env.virtAllowance env.virtResetR env.virtApproveR .virt virtBalance with
                  | (.error e, w) => (⟨false, tx4, "0", some e⟩, tr5 ++ w)
                  | (.ok _, w) =>
                    let tr6 := tr5 ++ w
                    match addLiquidityRun env.addLiqR env.lpBalanceR env.receiptLogsLiquidity wethBalance virtBalance with
                    | (.error e, w) => (⟨false, tx4, "0", some e⟩, tr6 ++ w)
                    | (.ok (lq, liquidity), w) =>
                      let tx5 := tx4 ++ [lq]
                      let tr7 := tr6 ++ w
                      match approveRun env.lpAllowance env.lpResetR env.lpApproveR .lp liquidity with
                      | (.error e, w) => (⟨false, tx5, "0", some e⟩, tr7 ++ w)
                      | (.ok lar, w) =>
                        let tx6 := tx5 ++ (match lar with | .noTxNeeded => [] | .txHash h => [h])
                        let tr8 := tr7 ++ w
                        match env.stakeR with
                        | .error e => (⟨false, tx6, "0", some e⟩, tr8)
                        | .ok st =>
                          (⟨true, tx6 ++ [st], formatUnits liquidity 18, none⟩,
                            tr8 ++ [.stakeW liquidity st])

/-! ## Withdrawal workflow (`LPAgent.executeWithdraw`, `getWithdrawableAmount`, `withdrawAll`) -/

/-- Oracle environment of one withdrawal run, one field per remote call in
program order.  `stakedBalanceR` is the gauge `balanceOf` read used by
`getWithdrawableAmount`. -/
structure WithdrawEnv where
  stakedBalanceR : Except Err Int
  unstakeR : Except Err Tx
  lpAllowance : Except Err Int
  lpResetR : Except Err Tx
  lpApproveR : Except Err Tx
  removeLiqR : Except Err Tx
  remAmountA : Int
  remAmountB : Int
  wethBalanceR : Except Err Int
  virtBalanceR : Except Err Int
  wethAllowance : Except Err Int
  wethResetR : Except Err Tx
  wethApproveR : Except Err Tx
  virtAllowance : Except Err Int
  virtResetR : Except Err Tx
  virtApproveR : Except Err Tx
  wethQuote : Except Err Int
  wethSwapR : Except Err Tx
  virtQuote : Except Err Int
  virtSwapR : Except Err Tx
  usdcBalanceR : Except Err Int
  transferR : Except Err Tx

/-- `WithdrawResult` (`types/index.ts`). -/
structure WithdrawResult where
  success : Bool
  txHashes : List Tx
  usdcReturned : String
  error : Option Err
deriving DecidableEq, Repr

/-- Modelled from the spec: `AerodromeService.removeLiquidity` is called by
`executeWithdraw` but its implementation is not among the source files
(only its ABI declaration and its call site are).  Per the spec it submits
the router's `removeLiquidity` with the given LP amount and **zero**
minimum-accepted amounts, awaits confirmation, and returns the transaction
identifier together with the two received amounts. -/
def removeLiquidityRun (remR : Except Err Tx) (amountA amountB : Int) (lpAmount : Int) :
    Except Err (Tx × Int × Int) × List WriteOp :=
  match remR with
  | .error e => (.error e, [])
  | .ok h => (.ok (h, amountA, amountB), [.removeLiquidityW lpAmount h])

/-- `GaugeService.getStakedBalance` (current revision): reads the gauge's
`balanceOf(agent)`; any error is caught and `0n` is returned instead. -/
def getStakedBalance (stakedBalanceR : Except Err Int) : Int :=
  match stakedBalanceR with
  | .error _ => 0
  | .ok v => v

/-- `parseFloat(s) > 0` on the decimal strings produced by `formatUnits`:
positive exactly when the string has no leading minus sign and some
nonzero digit (a double parse of such a string preserves strict
positivity, the magnitudes at hand being far above the underflow
threshold). -/
def decStringPos (s : String) : Bool :=
  s.toList.head? ≠ some '-' && s.toList.any (fun c => '1' ≤ c && c ≤ '9')

/-- `LPAgent.getWithdrawableAmount`: reads the staked LP balance, formats
it at 18 decimals, and reports whether a withdrawal is possible. -/
def getWithdrawableAmount (env : WithdrawEnv) :
    String × Bool × String :=
  let stakedLPWei := getStakedBalance env.stakedBalanceR
  let stakedLP := formatUnits stakedLPWei 18
  let canWithdraw := decStringPos stakedLP
  let message :=
    if canWithdraw then
      "Agent has " ++ stakedLP ++ " LP tokens available for withdrawal"
    else
      "No LP tokens staked - nothing to withdraw"
  (stakedLP, canWithdraw, message)

/-- `LPAgent.executeWithdraw(params)`, returning the `WithdrawResult` and
the chronological list of committed writes.

Transcription of `src/src/services/LPAgent.ts` lines 197–331: parse the LP
amount at 18 decimals; unstake it from the gauge (push); approve the LP
token for the router (push unless the sentinel); remove liquidity (push);
re-read both constituent balances; approve both constituents for the
router (identifiers **discarded**, never pushed); swap each full balance
back to the stablecoin (push each); read the final stablecoin balance and
transfer all of it to the user (push).  Any throw is caught and surfaced
raw next to the accumulated `txHashes`. -/
def executeWithdraw (env : WithdrawEnv) (lpAmount : String) (slippageBps : Int) :
    WithdrawResult × List WriteOp :=
  match parseUnits lpAmount 18 with
  | none => (⟨false, [], "0", some invalidAmountMsg⟩, [])
  | some lpAmountWei =>
    match env.unstakeR with
    | .error e => (⟨false, [], "0", some e⟩, [])
    | .ok u1 =>
      let tr1 := [WriteOp.unstakeW lpAmountWei u1]
      match approveRun env.lpAllowance env.lpResetR env.lpApproveR .lp lpAmountWei with
      | (.error e, w) => (⟨false, [u1], "0", some e⟩, tr1 ++ w)
      | (.ok ar, w) =>
        let tx2 := [u1] ++ (match ar with | .noTxNeeded => [] | .txHash h => [h])
        let tr2 := tr1 ++ w
        match removeLiquidityRun env.removeLiqR env.remAmountA env.remAmountB lpAmountWei with
        | (.error e, w) => (⟨false, tx2, "0", some e⟩, tr2 ++ w)
        | (.ok (rl, _amountA, _amountB), w) =>
          let tx3 := tx2 ++ [rl]
          let tr3 := tr2 ++ w
          match env.wethBalanceR with
          | .error e => (⟨false, tx3, "0", some e⟩, tr3)
          | .ok wethBalance =>
            match env.virtBalanceR with
            | .error e => (⟨false, tx3, "0", some e⟩, tr3)
            | .ok virtBalance =>
              match approveRun env.wethAllowance env.wethResetR env.wethApproveR .weth wethBalance with
              | (.error e, w) => (⟨false, tx3, "0", some e⟩, tr3 ++ w)
              | (.ok _, w) =>
                let tr4 := tr3 ++ w
                match approveRun env.virtAllowance env.virtResetR env.virtApproveR .virt virtBalance with
                | (.error e, w) => (⟨false, tx3, "0", some e⟩, tr4 ++ w)
                | (.ok _, w) =>
                  let tr5 := tr4 ++ w
                  match swapRun env.wethQuote env.wethSwapR wethBalance slippageBps with
                  | (.error e, w) => (⟨false, tx3, "0", some e⟩, tr5 ++ w)
                  | (.ok s1, w) =>
                    let tx4 := tx3 ++ [s1]
                    let tr6 := tr5 ++ w
                    match swapRun env.virtQuote env.virtSwapR virtBalance slippageBps with
                    | (.error e, w) => (⟨false, tx4, "0", some e⟩, tr6 ++ w)
                    | (.ok s2, w) =>
                      let tx5 := tx4 ++ [s2]
                      let tr7 := tr6 ++ w
                      match env.usdcBalanceR with
                      | .error e => (⟨false, tx5, "0", some e⟩, tr7)
                      | .ok finalUsdcBalance =>
                        match env.transferR with
                        | .error e => (⟨false, tx5, "0", some e⟩, tr7)
                        | .ok tf =>
                          (⟨true, tx5 ++ [tf], formatUnits finalUsdcBalance 6, none⟩,
                            tr7 ++ [.transferW finalUsdcBalance tf])

/-- `LPAgent.withdrawAll(userAddress)`: reads the withdrawable amount; if
nothing can be withdrawn, returns the "nothing to withdraw" result with an
empty transaction list without invoking any further step; otherwise runs
`executeWithdraw` on the formatted staked balance at the default 0.5%
slippage tolerance (50 basis points). -/
def withdrawAll (env : WithdrawEnv) : WithdrawResult × List WriteOp :=
  let w := getWithdrawableAmount env
  if w.2.1 then
    executeWithdraw env w.1 50
  else
    (⟨false, [], "0", some w.2.2⟩, [])

/-! ## Derived-specification helpers and concrete scenarios -/

/-- The writes committed by `TokenService.approve` when the allowance read
returns `a` and both potential writes would confirm: none if the allowance
covers `amount`, reset-then-set if it is nonzero but insufficient, a single
set otherwise. -/
def apprWrites (token : TokenKind) (a amount : Int) (r s : Tx) : List WriteOp :=
  if amount ≤ a then []
  else if 0 < a then [.approveW token 0 r, .approveW token amount s]
  else [.approveW token amount s]

/-- The swap input amounts submitted during a run, in order. -/
def swapInputs (ops : List WriteOp) : List Int :=
  ops.filterMap fun op =>
    match op with
    | .swapW a _ _ => some a
    | _ => none

/-- Deposit environment whose `k`-th fallible remote call (in program
order) throws `e` while every earlier call succeeds; every allowance reads
zero, so each reached approval is a single real set-write.  Call order:
1 transferFrom, 2 stablecoin approve, 3 swap to WETH, 4 swap to VIRTUAL,
5 WETH balance read, 6 VIRTUAL balance read, 7 WETH approve,
8 VIRTUAL approve, 9 addLiquidity, 10 LP balance re-query, 11 LP approve,
12 stake. -/
def failDepositEnv (k : Nat) (e : Err) (q1 q2 wb vb l logs : Int)
    (t1 a1 s1 s2 aw av lq la st : Tx) : DepositEnv where
  userUsdcBalance := 10 ^ 9
  agentEthWei := 10 ^ 17
  poolResolved := true
  transferFromR := if 1 < k then .ok t1 else .error e
  usdcAllowance := .ok 0
  usdcResetR := .ok "unreached"
  usdcApproveR := if 2 < k then .ok a1 else .error e
  wethQuote := .ok q1
  wethSwapR := if 3 < k then .ok s1 else .error e
  virtQuote := .ok q2
  virtSwapR := if 4 < k then .ok s2 else .error e
  wethBalanceR := if 5 < k then .ok wb else .error e
  virtBalanceR := if 6 < k then .ok vb else .error e
  wethAllowance := .ok 0
  wethResetR := .ok "unreached"
  wethApproveR := if 7 < k then .ok aw else .error e
  virtAllowance := .ok 0
  virtResetR := .ok "unreached"
  virtApproveR := if 8 < k then .ok av else .error e
  addLiqR := if 9 < k then .ok lq else .error e
  lpBalanceR := if 10 < k then .ok l else .error e
  receiptLogsLiquidity := logs
  lpAllowance := .ok 0
  lpResetR := .ok "unreached"
  lpApproveR := if 11 < k then .ok la else .error e
  stakeR := if 12 < k then .ok st else .error e

/-- The transaction-hash list the orchestrator has accumulated when the
`k`-th call of `failDepositEnv` throws. -/
def failTxHashes (k : Nat) (t1 a1 s1 s2 lq la : Tx) : List Tx :=
  if k ≤ 2 then [t1]
  else if k ≤ 3 then [t1, a1]
  else if k ≤ 4 then [t1, a1, s1]
  else if k ≤ 10 then [t1, a1, s1, s2]
  else if k ≤ 11 then [t1, a1, s1, s2, lq]
  else [t1, a1, s1, s2, lq, la]

/-- The writes committed on the ledger when the `k`-th call of
`failDepositEnv` throws; nothing at all is submitted afterwards. -/
def failTrace (k : Nat) (n wb vb l q1 q2 bps : Int)
    (t1 a1 s1 s2 aw av lq la : Tx) : List WriteOp :=
  [.transferFromW n t1] ++
  (if k ≤ 2 then [] else [.approveW .usdc n a1]) ++
  (if k ≤ 3 then [] else [.swapW (Int.tdiv n 2) (calculateMinAmount q1 bps) s1]) ++
  (if k ≤ 4 then [] else [.swapW (Int.tdiv n 2) (calculateMinAmount q2 bps) s2]) ++
  (if k ≤ 7 then [] else [.approveW .weth wb aw]) ++
  (if k ≤ 8 then [] else [.approveW .virt vb av]) ++
  (if k ≤ 9 then [] else [.addLiquidityW wb vb 0 0 lq]) ++
  (if k ≤ 11 then [] else [.approveW .lp l la])

/-- A fully successful concrete deposit scenario: every remote call
settles, every allowance is zero (all four approvals are real writes), the
swaps leave constituent balances of 7 and 8 base units, and the re-queried
LP balance is 55. -/
def depositOkEnv : DepositEnv where
  userUsdcBalance := 10 ^ 9
  agentEthWei := 10 ^ 17
  poolResolved := true
  transferFromR := .ok "t1"
  usdcAllowance := .ok 0
  usdcResetR := .ok "ur"
  usdcApproveR := .ok "a1"
  wethQuote := .ok 1000
  wethSwapR := .ok "s1"
  virtQuote := .ok 2000
  virtSwapR := .ok "s2"
  wethBalanceR := .ok 7
  virtBalanceR := .ok 8
  wethAllowance := .ok 0
  wethResetR := .ok "wr"
  wethApproveR := .ok "aw"
  virtAllowance := .ok 0
  virtResetR := .ok "vr"
  virtApproveR := .ok "av"
  addLiqR := .ok "lq"
  lpBalanceR := .ok 55
  receiptLogsLiquidity := 99
  lpAllowance := .ok 0
  lpResetR := .ok "lr"
  lpApproveR := .ok "la"
  stakeR := .ok "st"

/-- A concrete deposit scenario on a ledger where pool discovery did NOT
resolve a live pool (`poolResolved = false`): pool-independent calls
(transfer, stablecoin approval, both swaps) still settle, and the first
pool-dependent call -- the LP balance re-query inside `addLiquidity` --
throws. -/
def depositBadPoolEnv : DepositEnv :=
  { depositOkEnv with
    poolResolved := false
    lpBalanceR := .error "could not decode result data" }

/-- A concrete withdrawal scenario in which every remote call settles; the
gauge holds a staked balance of 3 wei of LP. -/
def withdrawOkEnv : WithdrawEnv where
  stakedBalanceR := .ok 3
  unstakeR := .ok "u1"
  lpAllowance := .ok 0
  lpResetR := .ok "lr"
  lpApproveR := .ok "la"
  removeLiqR := .ok "rl"
  remAmountA := 7
  remAmountB := 8
  wethBalanceR := .ok 7
  virtBalanceR := .ok 8
  wethAllowance := .ok 0
  wethResetR := .ok "wr"
  wethApproveR := .ok "aw"
  virtAllowance := .ok 0
  virtResetR := .ok "vr"
  virtApproveR := .ok "av"
  wethQuote := .ok 900
  wethSwapR := .ok "s1"
  virtQuote := .ok 1800
  virtSwapR := .ok "s2"
  usdcBalanceR := .ok 3900000
  transferR := .ok "tf"

/-- The same withdrawal scenario with nothing staked. -/
def withdrawZeroEnv : WithdrawEnv :=
  { withdrawOkEnv with stakedBalanceR := .ok 0 }

/-! ## Codec lemmas: the decimal round trip -/

lemma digitChar_isDigit {d : Nat} (hd : d < 10) : (digitChar d).isDigit = true := by
  interval_cases d <;> decide

lemma digitVal_digitChar {d : Nat} (hd : d < 10) : digitVal (digitChar d) = d := by
  interval_cases d <;> decide

lemma digitChar_ne_dot {d : Nat} (hd : d < 10) : digitChar d ≠ '.' := by
  interval_cases d <;> decide

lemma digitChar_ne_dash {d : Nat} (hd : d < 10) : digitChar d ≠ '-' := by
  interval_cases d <;> decide

lemma digitChar_pos_iff {d : Nat} (hd : d < 10) :
    (('1' ≤ digitChar d && digitChar d ≤ '9') = true) ↔ d ≠ 0 := by
  interval_cases d <;> decide

lemma parseDigitsLoop_map (ds : List Nat) (h : ∀ d ∈ ds, d < 10) (acc : Nat) :
    (ds.map digitChar).foldl
      (fun acc c => acc.bind fun n => if c.isDigit then some (n * 10 + digitVal c) else none)
      (some acc) = some (ds.foldl (fun a d => a * 10 + d) acc) := by
  induction ds generalizing acc with
  | nil => rfl
  | cons d tl ih =>
    have hd : d < 10 := h d (List.mem_cons_self d tl)
    have htl : ∀ x ∈ tl, x < 10 := fun x hx => h x (List.mem_cons_of_mem _ hx)
    simp only [List.map_cons, List.foldl_cons, Option.bind, digitChar_isDigit hd, if_pos,
      digitVal_digitChar hd]
    exact ih htl _

lemma parseDecDigits_map (ds : List Nat) (h : ∀ d ∈ ds, d < 10) (hne : ds ≠ []) :
    parseDecDigits (ds.map digitChar) = some (valMSD ds) := by
  unfold parseDecDigits valMSD
  have : (ds.map digitChar).isEmpty = false := by
    simp [List.isEmpty_iff, hne]
  rw [this, if_neg (by simp)]
  exact parseDigitsLoop_map ds h 0

lemma valMSD_nil : valMSD [] = 0 := rfl

lemma valMSD_leading_zeros (k : Nat) (ds : List Nat) :
    valMSD (List.replicate k 0 ++ ds) = valMSD ds := by
  unfold valMSD
  rw [List.foldl_append]
  have : List.foldl (fun a d => a * 10 + d) 0 (List.replicate k 0) = 0 := by
    induction k with
    | zero => rfl
    | succ k ih => simpa [List.replicate_succ] using ih
  rw [this]

lemma valMSD_append_zeros (ds : List Nat) (k : Nat) :
    valMSD (ds ++ List.replicate k 0) = valMSD ds * 10 ^ k := by
  induction k with
  | zero => simp [valMSD]
  | succ k ih =>
    rw [List.replicate_succ', ← List.append_assoc]
    unfold valMSD at ih ⊢
    rw [List.foldl_append]
    simp only [List.foldl_cons, List.foldl_nil]
    rw [ih]
    ring

lemma foldr_eq_ofDigits (l : List Nat) :
    l.foldr (fun d a => a * 10 + d) 0 = Nat.ofDigits 10 l := by
  induction l with
  | nil => simp [Nat.ofDigits_nil]
  | cons d tl ih => simp [List.foldr_cons, Nat.ofDigits_cons, ih]; ring

lemma valMSD_reverse_digits (n : Nat) : valMSD ((Nat.digits 10 n).reverse) = n := by
  unfold valMSD
  rw [List.foldl_reverse, foldr_eq_ofDigits, Nat.ofDigits_digits]

lemma valMSD_decDigits (n : Nat) : valMSD (decDigits n) = n := by
  unfold decDigits
  by_cases h : n = 0
  · subst h; rfl
  · rw [if_neg h]; exact valMSD_reverse_digits n

lemma decDigits_lt (n : Nat) : ∀ d ∈ decDigits n, d < 10 := by
  intro d hd
  unfold decDigits at hd
  by_cases h : n = 0
  · subst h; simp at hd; omega
  · rw [if_neg h, List.mem_reverse] at hd
    exact Nat.digits_lt_base (by norm_num) hd

lemma decDigits_ne_nil (n : Nat) : decDigits n ≠ [] := by
  unfold decDigits
  by_cases h : n = 0
  · subst h; simp
  · rw [if_neg h]
    simp [Nat.digits_ne_nil_iff_ne_zero, h]

lemma digitsLen_le {m d : Nat} (h : m < 10 ^ d) : (Nat.digits 10 m).length ≤ d := by
  by_cases hm : m = 0
  · subst hm; simp
  · rw [Nat.digits_len 10 m (by norm_num) hm]
    have := Nat.log_lt_of_lt_pow hm h
    omega

lemma fracDigits_lt (v d : Nat) : ∀ x ∈ fracDigits v d, x < 10 := by
  intro x hx
  unfold fracDigits at hx
  rcases List.mem_append.mp hx with h | h
  · have := List.eq_of_mem_replicate h; omega
  · rw [List.mem_reverse] at h
    exact Nat.digits_lt_base (by norm_num) h

lemma fracDigits_length (v d : Nat) : (fracDigits v d).length = d := by
  unfold fracDigits
  have hlt : v % 10 ^ d < 10 ^ d := Nat.mod_lt _ (Nat.pos_pow_of_pos d (by norm_num))
  have hle : (Nat.digits 10 (v % 10 ^ d)).length ≤ d := digitsLen_le hlt
  simp only [List.length_append, List.length_replicate, List.length_reverse]
  omega

lemma valMSD_fracDigits (v d : Nat) : valMSD (fracDigits v d) = v % 10 ^ d := by
  unfold fracDigits
  rw [valMSD_leading_zeros, valMSD_reverse_digits]

lemma trimZeros_decomp (ds : List Nat) :
    ds = trimZeros ds ++ List.replicate (ds.length - (trimZeros ds).length) 0 := by
  unfold trimZeros
  have hsplit := List.takeWhile_append_dropWhile (p := fun x => decide (x = 0)) (l := ds.reverse)
  have htake : ds.reverse.takeWhile (fun x => decide (x = 0)) =
      List.replicate (ds.reverse.takeWhile (fun x => decide (x = 0))).length 0 := by
    rw [List.eq_replicate_iff]
    refine ⟨rfl, fun b hb => by simpa using List.mem_takeWhile_imp hb⟩
  have hlen : (ds.reverse.dropWhile (fun x => decide (x = 0))).length ≤ ds.length := by
    calc (ds.reverse.dropWhile (fun x => decide (x = 0))).length
        ≤ ds.reverse.length := (List.dropWhile_sublist _).length_le
      _ = ds.length := List.length_reverse ..
  conv_lhs => rw [← List.reverse_reverse ds, ← hsplit]
  rw [List.reverse_append, List.length_reverse]
  congr 1
  · rw [htake, List.reverse_replicate]
    congr 1
    have hlens := congrArg List.length hsplit
    simp only [List.length_append, List.length_reverse] at hlens
    omega

lemma trimZeros_subset (ds : List Nat) : ∀ x ∈ trimZeros ds, x ∈ ds := by
  intro x hx
  unfold trimZeros at hx
  rw [List.mem_reverse] at hx
  have := (List.dropWhile_sublist (l := ds.reverse) (p := fun x => decide (x = 0))).mem hx
  simpa using this

lemma trimZeros_length_le (ds : List Nat) : (trimZeros ds).length ≤ ds.length := by
  unfold trimZeros
  calc ((ds.reverse.dropWhile (fun x => decide (x = 0))).reverse).length
      = (ds.reverse.dropWhile (fun x => decide (x = 0))).length := List.length_reverse ..
    _ ≤ ds.reverse.length := (List.dropWhile_sublist _).length_le
    _ = ds.length := List.length_reverse ..

lemma span_all_sat (xs : List Char) (h : ∀ c ∈ xs, c ≠ '.') :
    xs.span (fun c => c ≠ '.') = (xs, []) := by
  rw [List.span_eq_take_drop]
  have h' : ∀ x ∈ xs, (fun c => decide (c ≠ '.')) x = true := by
    intro x hx
    simpa using h x hx
  rw [List.takeWhile_eq_self_iff.mpr h', List.dropWhile_eq_nil_iff.mpr h']

lemma span_no_dot (xs ys : List Char) (h : ∀ c ∈ xs, c ≠ '.') :
    (xs ++ '.' :: ys).span (fun c => c ≠ '.') = (xs, '.' :: ys) := by
  rw [List.span_eq_take_drop]
  refine Prod.ext ?_ ?_
  · show (xs ++ '.' :: ys).takeWhile (fun c => decide (c ≠ '.')) = xs
    induction xs with
    | nil => simp [List.takeWhile_cons]
    | cons c tl ih =>
      have hc : c ≠ '.' := h c (List.mem_cons_self c tl)
      rw [List.cons_append, List.takeWhile_cons, if_pos (by simpa using hc)]
      rw [ih (fun x hx => h x (List.mem_cons_of_mem _ hx))]
  · show (xs ++ '.' :: ys).dropWhile (fun c => decide (c ≠ '.')) = '.' :: ys
    induction xs with
    | nil => simp [List.dropWhile_cons]
    | cons c tl ih =>
      have hc : c ≠ '.' := h c (List.mem_cons_self c tl)
      rw [List.cons_append, List.dropWhile_cons, if_pos (by simpa using hc)]
      exact ih (fun x hx => h x (List.mem_cons_of_mem _ hx))

lemma map_digitChar_no_dot (ds : List Nat) (h : ∀ d ∈ ds, d < 10) :
    ∀ c ∈ ds.map digitChar, c ≠ '.' := by
  intro c hc
  rcases List.mem_map.mp hc with ⟨d, hd, rfl⟩
  exact digitChar_ne_dot (h d hd)

/-- Fraction digit list actually rendered by `formatUnitsNat` for `d ≠ 0`. -/
def fracRendered (v d : Nat) : List Nat :=
  if (trimZeros (fracDigits v d)).isEmpty then [0] else trimZeros (fracDigits v d)

lemma fracRendered_lt (v d : Nat) : ∀ x ∈ fracRendered v d, x < 10 := by
  intro x hx
  unfold fracRendered at hx
  by_cases h : (trimZeros (fracDigits v d)).isEmpty
  · rw [if_pos h] at hx; simp at hx; omega
  · rw [if_neg h] at hx
    exact fracDigits_lt v d x (trimZeros_subset _ x hx)

lemma fracRendered_ne_nil (v d : Nat) : fracRendered v d ≠ [] := by
  unfold fracRendered
  by_cases h : (trimZeros (fracDigits v d)).isEmpty
  · simp [h]
  · simpa [h] using by simpa [List.isEmpty_iff] using h

lemma fracRendered_length_le (v d : Nat) (hd : d ≠ 0) : (fracRendered v d).length ≤ d := by
  unfold fracRendered
  by_cases h : (trimZeros (fracDigits v d)).isEmpty
  · rw [if_pos h]; simpa using Nat.one_le_iff_ne_zero.mpr hd
  · rw [if_neg h]
    calc (trimZeros (fracDigits v d)).length ≤ (fracDigits v d).length :=
          trimZeros_length_le _
      _ = d := fracDigits_length v d

lemma fracRendered_val (v d : Nat) :
    valMSD (fracRendered v d) * 10 ^ (d - (fracRendered v d).length) = v % 10 ^ d := by
  unfold fracRendered
  by_cases h : (trimZeros (fracDigits v d)).isEmpty
  · rw [if_pos h]
    have hnil : trimZeros (fracDigits v d) = [] := List.isEmpty_iff.mp h
    have hzero : v % 10 ^ d = 0 := by
      have hv := valMSD_fracDigits v d
      rw [trimZeros_decomp (fracDigits v d), hnil, List.nil_append] at hv
      rw [← hv]
      simpa using valMSD_leading_zeros _ ([] : List Nat)
    simp [valMSD, hzero]
  · rw [if_neg h]
    have hdecomp := trimZeros_decomp (fracDigits v d)
    have hval := valMSD_fracDigits v d
    conv_rhs => rw [← hval]
    conv_rhs => rw [hdecomp]
    rw [valMSD_append_zeros]
    congr 2
    rw [fracDigits_length]

lemma formatUnitsNat_toList (v d : Nat) (hd : d ≠ 0) :
    (formatUnitsNat v d).toList =
      (decDigits (v / 10 ^ d)).map digitChar ++ '.' :: (fracRendered v d).map digitChar := by
  unfold formatUnitsNat natDecString fracRendered
  rw [if_neg hd]
  simp [String.toList, String.data_append]

/-- The ethers v6 decimal codec round-trips exactly on natural values. -/
theorem parseUnitsNat_formatUnitsNat (v d : Nat) :
    parseUnitsNat (formatUnitsNat v d) d = some v := by
  by_cases hd : d = 0
  · subst hd
    have hfmt : formatUnitsNat v 0 = natDecString v := by
      unfold formatUnitsNat
      rw [if_pos rfl]
    rw [hfmt]
    unfold parseUnitsNat
    have hlist : (natDecString v).toList = (decDigits v).map digitChar := rfl
    rw [hlist, span_all_sat _ (map_digitChar_no_dot _ (decDigits_lt v))]
    show Option.map (fun x => x * 10 ^ 0) (parseDecDigits ((decDigits v).map digitChar)) = some v
    rw [parseDecDigits_map _ (decDigits_lt v) (decDigits_ne_nil v)]
    simp [valMSD_decDigits]
  · unfold parseUnitsNat
    rw [formatUnitsNat_toList v d hd,
      span_no_dot _ _ (map_digitChar_no_dot _ (decDigits_lt _))]
    have hnodotf : ((fracRendered v d).map digitChar).contains '.' = false := by
      rw [List.contains_eq_any_beq, List.any_eq_false]
      intro c hc
      have hcd := map_digitChar_no_dot _ (fracRendered_lt v d) c hc
      simp only [beq_iff_eq]
      exact fun h => hcd h.symm
    have hwne : ((decDigits (v / 10 ^ d)).map digitChar).isEmpty = false := by
      simp [List.isEmpty_iff, decDigits_ne_nil]
    have hfne : ((fracRendered v d).map digitChar).isEmpty = false := by
      have hne := fracRendered_ne_nil v d
      simp [List.isEmpty_iff, hne]
    have hlen' : ¬ d < (fracRendered v d).length :=
      not_lt.mpr (fracRendered_length_le v d hd)
    have hlen : ¬ d < ((fracRendered v d).map digitChar).length := by
      simpa using hlen'
    have h1 := parseDecDigits_map _ (decDigits_lt (v / 10 ^ d)) (decDigits_ne_nil _)
    have h2 := parseDecDigits_map _ (fracRendered_lt v d) (fracRendered_ne_nil v d)
    simp only [hnodotf, hwne, hfne, hlen, hlen', h1, h2, Bool.false_and, Bool.false_eq_true,
      if_false, List.length_map, valMSD_decDigits]
    rw [fracRendered_val v d]
    rw [Nat.div_add_mod']

lemma formatUnitsNat_head_digit (v d : Nat) :
    ∃ d0 rest, (formatUnitsNat v d).toList = digitChar d0 :: rest ∧ d0 < 10 := by
  by_cases hd : d = 0
  · subst hd
    have hfmt : formatUnitsNat v 0 = natDecString v := by
      unfold formatUnitsNat
      rw [if_pos rfl]
    rw [hfmt]
    obtain ⟨d0, tl, hds⟩ := List.exists_cons_of_ne_nil (decDigits_ne_nil v)
    refine ⟨d0, tl.map digitChar, ?_, ?_⟩
    · show ((decDigits v).map digitChar) = _
      rw [hds, List.map_cons]
    · exact decDigits_lt v d0 (by rw [hds]; exact List.mem_cons_self d0 tl)
  · rw [formatUnitsNat_toList v d hd]
    obtain ⟨d0, tl, hds⟩ := List.exists_cons_of_ne_nil (decDigits_ne_nil (v / 10 ^ d))
    refine ⟨d0, tl.map digitChar ++ '.' :: (fracRendered v d).map digitChar, ?_, ?_⟩
    · rw [hds, List.map_cons, List.cons_append]
    · exact decDigits_lt _ d0 (by rw [hds]; exact List.mem_cons_self d0 tl)

lemma formatUnitsNat_head_ne_dash (v d : Nat) :
    (formatUnitsNat v d).toList.head? ≠ some '-' := by
  obtain ⟨d0, rest, hlist, hd0⟩ := formatUnitsNat_head_digit v d
  rw [hlist]
  simp only [List.head?_cons, ne_eq, Option.some.injEq]
  exact digitChar_ne_dash hd0

/-- The decimal codec of `utils.ts` round-trips exactly on every `bigint`. -/
theorem parseUnits_formatUnits (x : Int) (d : Nat) :
    parseUnits (formatUnits x d) d = some x := by
  unfold formatUnits parseUnits
  by_cases hx : x < 0
  · rw [if_pos hx]
    have htl : ("-" ++ formatUnitsNat x.natAbs d).toList =
        '-' :: (formatUnitsNat x.natAbs d).toList := by
      show ("-" ++ formatUnitsNat x.natAbs d).data = _
      rw [String.data_append]
      rfl
    rw [htl]
    simp only [List.head?_cons, List.tail_cons, if_pos rfl]
    have hmk : String.mk (formatUnitsNat x.natAbs d).toList = formatUnitsNat x.natAbs d := rfl
    rw [hmk, parseUnitsNat_formatUnitsNat]
    show some (-(x.natAbs : Int)) = some x
    have hneg : -(x.natAbs : Int) = x := by omega
    rw [hneg]
  · rw [if_neg hx]
    rw [if_neg (formatUnitsNat_head_ne_dash x.natAbs d)]
    rw [parseUnitsNat_formatUnitsNat]
    show some ((x.natAbs : Int)) = some x
    have hpos : ((x.natAbs : Int)) = x := by omega
    rw [hpos]

lemma valMSD_eq_zero_of_all_zero (ds : List Nat) (h : ∀ x ∈ ds, x = 0) : valMSD ds = 0 := by
  have : ds = List.replicate ds.length 0 := List.eq_replicate_iff.mpr ⟨rfl, h⟩
  rw [this]
  simpa using valMSD_leading_zeros ds.length ([] : List Nat)

lemma exists_nonzero_digit {ds : List Nat} (h : valMSD ds ≠ 0) : ∃ x ∈ ds, x ≠ 0 := by
  by_contra hall
  push_neg at hall
  exact h (valMSD_eq_zero_of_all_zero ds hall)

lemma decStringPos_formatUnits_pos {x : Int} (hx : 0 < x) (d : Nat) :
    decStringPos (formatUnits x d) = true := by
  have hxn : ¬ x < 0 := by omega
  unfold formatUnits decStringPos
  rw [if_neg hxn]
  have hv : x.natAbs ≠ 0 := by omega
  rw [Bool.and_eq_true]
  refine ⟨by simpa using formatUnitsNat_head_ne_dash x.natAbs d, ?_⟩
  rw [List.any_eq_true]
  by_cases hd : d = 0
  · subst hd
    have hfmt : formatUnitsNat x.natAbs 0 = natDecString x.natAbs := by
      unfold formatUnitsNat
      rw [if_pos rfl]
    rw [hfmt]
    have hval : valMSD (decDigits x.natAbs) ≠ 0 := by
      rw [valMSD_decDigits]; exact hv
    obtain ⟨d0, hmem, hne⟩ := exists_nonzero_digit hval
    refine ⟨digitChar d0, ?_, ?_⟩
    · show digitChar d0 ∈ (decDigits x.natAbs).map digitChar
      exact List.mem_map_of_mem _ hmem
    · exact (digitChar_pos_iff (decDigits_lt _ d0 hmem)).mpr hne
  · rw [formatUnitsNat_toList _ d hd]
    set v := x.natAbs with hvdef
    by_cases hq : v / 10 ^ d = 0
    · have hr : v % 10 ^ d ≠ 0 := by
        intro h0
        have hdm := Nat.div_add_mod v (10 ^ d)
        rw [hq, h0] at hdm
        simp at hdm
        exact hv hdm.symm
      have hfval : valMSD (fracRendered v d) ≠ 0 := by
        intro h0
        have := fracRendered_val v d
        rw [h0] at this
        simp at this
        exact hr this.symm
      obtain ⟨d0, hmem, hne⟩ := exists_nonzero_digit hfval
      refine ⟨digitChar d0, ?_, ?_⟩
      · refine List.mem_append.mpr (Or.inr ?_)
        exact List.mem_cons_of_mem _ (List.mem_map_of_mem _ hmem)
      · exact (digitChar_pos_iff (fracRendered_lt v d d0 hmem)).mpr hne
    · have hval : valMSD (decDigits (v / 10 ^ d)) ≠ 0 := by
        rw [valMSD_decDigits]; exact hq
      obtain ⟨d0, hmem, hne⟩ := exists_nonzero_digit hval
      refine ⟨digitChar d0, ?_, ?_⟩
      · exact List.mem_append.mpr (Or.inl (List.mem_map_of_mem _ hmem))
      · exact (digitChar_pos_iff (decDigits_lt _ d0 hmem)).mpr hne

lemma trimZeros_replicate (n : Nat) : trimZeros (List.replicate n 0) = [] := by
  unfold trimZeros
  rw [List.reverse_replicate]
  have h : List.dropWhile (fun x => decide (x = 0)) (List.replicate n 0) = [] := by
    induction n with
    | zero => rfl
    | succ n ih => rw [List.replicate_succ, List.dropWhile_cons]; simpa using ih
  rw [h]
  rfl

lemma fracDigits_zero (d : Nat) : fracDigits 0 d = List.replicate d 0 := by
  unfold fracDigits
  rw [Nat.zero_mod, Nat.digits_zero, List.reverse_nil]
  simp

lemma fracRendered_zero (d : Nat) : fracRendered 0 d = [0] := by
  unfold fracRendered
  rw [fracDigits_zero, trimZeros_replicate]
  rfl

lemma formatUnitsNat_zero (d : Nat) (hd : d ≠ 0) :
    (formatUnitsNat 0 d).toList = [digitChar 0, '.', digitChar 0] := by
  rw [formatUnitsNat_toList 0 d hd]
  norm_num [decDigits, fracRendered_zero]

/-! ## Workflow characterization lemmas -/

lemma approveRun_ok (a amount : Int) (r s : Tx) (token : TokenKind) :
    approveRun (.ok a) (.ok r) (.ok s) token amount =
      (.ok (if amount ≤ a then .noTxNeeded else .txHash s), apprWrites token a amount r s) := by
  by_cases h1 : amount ≤ a
  · simp [approveRun, apprWrites, h1]
  · by_cases h2 : 0 < a <;> simp [approveRun, apprWrites, h1, h2]

lemma deposit_ok_run
    (uB uE : Int) (pr : Bool) (s : String) (n : Int) (hs : parseUnits s 6 = some n)
    (aU aW aV aL wb vb l q1 q2 logs bps : Int)
    (t1 ur a1 s1 s2 wr aw vr av lq lr la st : Tx) :
    executeFullDeposit
      { userUsdcBalance := uB, agentEthWei := uE, poolResolved := pr,
        transferFromR := .ok t1, usdcAllowance := .ok aU, usdcResetR := .ok ur,
        usdcApproveR := .ok a1, wethQuote := .ok q1, wethSwapR := .ok s1,
        virtQuote := .ok q2, virtSwapR := .ok s2, wethBalanceR := .ok wb,
        virtBalanceR := .ok vb, wethAllowance := .ok aW, wethResetR := .ok wr,
        wethApproveR := .ok aw, virtAllowance := .ok aV, virtResetR := .ok vr,
        virtApproveR := .ok av, addLiqR := .ok lq, lpBalanceR := .ok l,
        receiptLogsLiquidity := logs, lpAllowance := .ok aL, lpResetR := .ok lr,
        lpApproveR := .ok la, stakeR := .ok st } s bps =
      (⟨true,
        [t1] ++ (if n ≤ aU then [] else [a1]) ++ [s1, s2, lq] ++
          (if l ≤ aL then [] else [la]) ++ [st],
        formatUnits l 18, none⟩,
        [.transferFromW n t1] ++ apprWrites .usdc aU n ur a1 ++
          [.swapW (Int.tdiv n 2) (calculateMinAmount q1 bps) s1,
            .swapW (Int.tdiv n 2) (calculateMinAmount q2 bps) s2] ++
          apprWrites .weth aW wb wr aw ++ apprWrites .virt aV vb vr av ++
          [.addLiquidityW wb vb 0 0 lq] ++ apprWrites .lp aL l lr la ++
          [.stakeW l st]) := by
  by_cases h1 : n ≤ aU <;> by_cases h2 : l ≤ aL <;>
    simp [executeFullDeposit, approveRun_ok, swapRun, addLiquidityRun, hs, h1, h2]

lemma executeWithdraw_head (env : WithdrawEnv) (s : String) (n : Int) (bps : Int) (utx : Tx)
    (hs : parseUnits s 18 = some n) (hu : env.unstakeR = .ok utx) :
    (executeWithdraw env s bps).2.head? = some (.unstakeW n utx) := by
  unfold executeWithdraw
  rw [hs, hu]
  repeat' split
  all_goals simp_all

lemma swapInputs_apprWrites (token : TokenKind) (a amt : Int) (r s : Tx) :
    swapInputs (apprWrites token a amt r s) = [] := by
  unfold apprWrites swapInputs
  split_ifs <;> rfl

/-! ## Claim theorems -/

/-- C4 counterexample: `addLiquidity` does not return the recipient's
LP-balance **delta**.  Scenario: the recipient already held 5 LP before the
call, the pool mints 10, so the post-confirmation re-query returns 15 and
the delta is 15 − 5 = 10; the code's returned `liquidity` is the absolute
re-queried balance 15, not the delta 10.  (The third argument 40 is what
event-log parsing would have yielded; it is ignored.) -/
theorem c4_balance_not_delta_counterexample :
    (addLiquidityRun (.ok "lq") (.ok 15) 40 7 8).1 = .ok ("lq", 15) ∧
      (15 : Int) ≠ 15 - 5 := by
  constructor
  · rfl
  · decide

/-- C4 (amended): after a confirmed `addLiquidity`, the minted-LP amount
returned to the caller is the recipient's **absolute** LP-token balance
re-queried from the LP-token contract post-confirmation — never an amount
parsed from the transaction's emitted events/logs (the result is invariant
under the value log-parsing would give) — and it equals the balance delta
only when the recipient's pre-call LP balance was zero. -/
theorem c4_returns_requeried_balance :
    (∀ (addR : Except Err Tx) (lpBalR : Except Err Int) (logs logs' aA aB : Int),
      addLiquidityRun addR lpBalR logs aA aB = addLiquidityRun addR lpBalR logs' aA aB) ∧
    (∀ (h : Tx) (b logs aA aB : Int),
      addLiquidityRun (.ok h) (.ok b) logs aA aB =
        (.ok (h, b), [.addLiquidityW aA aB 0 0 h])) :=
  ⟨fun _ _ _ _ _ _ => rfl, fun _ _ _ _ _ => rfl⟩

/-- C6: for every token, spender and amount with `0 < allowance < amount`,
`approve` issues exactly two on-ledger writes in order — first the
set-to-zero approval, then the set-to-amount approval — returning the
second write's identifier; the blocking-until-confirmed discipline is the
sequencing of the embedding (the second write is consulted only after the
first one's confirmation result is `.ok`). -/
theorem c6_reset_before_increase (a amount : Int) (r s : Tx) (token : TokenKind)
    (h0 : 0 < a) (h1 : a < amount) :
    approveRun (.ok a) (.ok r) (.ok s) token amount =
      (.ok (.txHash s), [.approveW token 0 r, .approveW token amount s]) := by
  simp [approveRun, not_le.mpr h1, h0]

/-- C6 witness: allowance 5, requested amount 12. -/
theorem c6_reset_before_increase_witness :
    approveRun (.ok 5) (.ok "r0") (.ok "r1") .usdc 12 =
      (.ok (.txHash "r1"), [.approveW .usdc 0 "r0", .approveW .usdc 12 "r1"]) :=
  c6_reset_before_increase 5 12 "r0" "r1" .usdc (by decide) (by decide)

/-- C9: with an obtainable quote `q`, the swap submits the
minimum-acceptable output `(q * (10000 − slippageBps)) / 10000`, computed
in exact `bigint` arithmetic (truncated division); when no quote is
obtainable, the submitted minimum output falls back to 1 base unit. -/
theorem c9_swap_min_output :
    (∀ (q bps amountIn : Int) (h : Tx),
      swapRun (.ok q) (.ok h) amountIn bps =
        (.ok h, [.swapW amountIn (Int.tdiv (q * (10000 - bps)) 10000) h])) ∧
    (∀ (e : Err) (bps amountIn : Int) (h : Tx),
      swapRun (.error e) (.ok h) amountIn bps = (.ok h, [.swapW amountIn 1 h])) :=
  ⟨fun _ _ _ _ => rfl, fun _ _ _ _ => rfl⟩

/-- C5: when the existing allowance already covers the requested amount,
`approve` issues zero on-ledger writes and returns the `"no-tx-needed"`
sentinel; and on a successful deposit run with a sufficient stablecoin
allowance the orchestrator records nothing for that approval — the
transaction-hash list holds exactly the transfer, the two swaps, the
add-liquidity, the LP approval write and the stake, with no entry for the
sentinel. -/
theorem c5_idempotent_approve :
    (∀ (a amount : Int) (resetR setR : Except Err Tx) (token : TokenKind),
      amount ≤ a → approveRun (.ok a) resetR setR token amount = (.ok .noTxNeeded, [])) ∧
    (∀ (uB uE : Int) (pr : Bool) (s : String) (n aU wb vb l q1 q2 logs bps : Int)
      (t1 ur a1 s1 s2 wr aw vr av lq lr la st : Tx),
      parseUnits s 6 = some n → n ≤ aU → 0 < wb → 0 < vb → 0 < l →
      executeFullDeposit
        { userUsdcBalance := uB, agentEthWei := uE, poolResolved := pr,
          transferFromR := .ok t1, usdcAllowance := .ok aU, usdcResetR := .ok ur,
          usdcApproveR := .ok a1, wethQuote := .ok q1, wethSwapR := .ok s1,
          virtQuote := .ok q2, virtSwapR := .ok s2, wethBalanceR := .ok wb,
          virtBalanceR := .ok vb, wethAllowance := .ok 0, wethResetR := .ok wr,
          wethApproveR := .ok aw, virtAllowance := .ok 0, virtResetR := .ok vr,
          virtApproveR := .ok av, addLiqR := .ok lq, lpBalanceR := .ok l,
          receiptLogsLiquidity := logs, lpAllowance := .ok 0, lpResetR := .ok lr,
          lpApproveR := .ok la, stakeR := .ok st } s bps =
        (⟨true, [t1, s1, s2, lq, la, st], formatUnits l 18, none⟩,
          [.transferFromW n t1,
            .swapW (Int.tdiv n 2) (calculateMinAmount q1 bps) s1,
            .swapW (Int.tdiv n 2) (calculateMinAmount q2 bps) s2,
            .approveW .weth wb aw, .approveW .virt vb av,
            .addLiquidityW wb vb 0 0 lq, .approveW .lp l la, .stakeW l st])) := by
  constructor
  · intro a amount resetR setR token hle
    unfold approveRun
    simp [hle]
  · intro uB uE pr s n aU wb vb l q1 q2 logs bps t1 ur a1 s1 s2 wr aw vr av lq lr la st
      hs hle hwb hvb hl
    rw [deposit_ok_run uB uE pr s n hs aU 0 0 0 wb vb l q1 q2 logs bps
      t1 ur a1 s1 s2 wr aw vr av lq lr la st]
    simp [apprWrites, hle, not_le.mpr hwb, not_le.mpr hvb, not_le.mpr hl]

/-- C5 witness: allowance 10^9 covers a 4-unit (4,000,000 base units)
deposit; every other allowance is zero and every balance positive. -/
theorem c5_idempotent_approve_witness :
    executeFullDeposit
      { userUsdcBalance := 10 ^ 9, agentEthWei := 10 ^ 17, poolResolved := true,
        transferFromR := .ok "t1", usdcAllowance := .ok (10 ^ 9), usdcResetR := .ok "ur",
        usdcApproveR := .ok "a1", wethQuote := .ok 1000, wethSwapR := .ok "s1",
        virtQuote := .ok 2000, virtSwapR := .ok "s2", wethBalanceR := .ok 7,
        virtBalanceR := .ok 8, wethAllowance := .ok 0, wethResetR := .ok "wr",
        wethApproveR := .ok "aw", virtAllowance := .ok 0, virtResetR := .ok "vr",
        virtApproveR := .ok "av", addLiqR := .ok "lq", lpBalanceR := .ok 55,
        receiptLogsLiquidity := 99, lpAllowance := .ok 0, lpResetR := .ok "lr",
        lpApproveR := .ok "la", stakeR := .ok "st" } "4" 50 =
      (⟨true, ["t1", "s1", "s2", "lq", "la", "st"], formatUnits 55 18, none⟩,
        [.transferFromW 4000000 "t1",
          .swapW (Int.tdiv 4000000 2) (calculateMinAmount 1000 50) "s1",
          .swapW (Int.tdiv 4000000 2) (calculateMinAmount 2000 50) "s2",
          .approveW .weth 7 "aw", .approveW .virt 8 "av",
          .addLiquidityW 7 8 0 0 "lq", .approveW .lp 55 "la", .stakeW 55 "st"]) :=
  c5_idempotent_approve.2 (10 ^ 9) (10 ^ 17) true "4" 4000000 (10 ^ 9) 7 8 55 1000 2000 99 50
    "t1" "ur" "a1" "s1" "s2" "wr" "aw" "vr" "av" "lq" "lr" "la" "st"
    (by decide) (by decide) (by decide) (by decide) (by decide)

/-- C7 counterexample: the 9-step `executeFullDeposit` performs **no**
precondition check before TransferIn.  On a ledger where the "target pool
resolved" precondition is unmet (`poolResolved = false`), the
pool-independent steps still settle and the workflow issues four
transactions (transfer, stablecoin approval, both swaps) before failing at
the first pool-dependent call — not the zero transactions the claim
requires. -/
theorem c7_no_precondition_check_counterexample :
    depositBadPoolEnv.poolResolved = false ∧
      (executeFullDeposit depositBadPoolEnv "4" 50).1.txHashes =
        ["t1", "a1", "s1", "s2"] ∧
      (["t1", "a1", "s1", "s2"] : List Tx) ≠ [] := by
  refine ⟨rfl, ?_, by decide⟩
  decide

/-- C7 (amended): `executeFullDeposit` performs no upfront precondition
check; preconditions are enforced only in that a violated one makes the
first step's `transferFrom` itself throw, in which case the workflow
returns success=false with zero transactions issued and an empty write
trace. -/
theorem c7_transfer_failure_aborts_empty (env : DepositEnv) (s : String) (n : Int)
    (bps : Int) (e : Err) (hs : parseUnits s 6 = some n)
    (htr : env.transferFromR = .error e) :
    executeFullDeposit env s bps = (⟨false, [], "0", some e⟩, []) := by
  unfold executeFullDeposit
  rw [hs, htr]

/-- C7 witness: user allowance missing, so the `transferFrom` of a 4-unit
deposit reverts; the workflow aborts with zero transactions. -/
theorem c7_transfer_failure_aborts_empty_witness :
    executeFullDeposit
      (failDepositEnv 1 "TransferRejected" 1000 2000 7 8 55 99
        "t1" "a1" "s1" "s2" "aw" "av" "lq" "la" "st") "4" 50 =
      (⟨false, [], "0", some "TransferRejected"⟩, []) :=
  c7_transfer_failure_aborts_empty _ "4" 4000000 50 "TransferRejected"
    (by decide) rfl

/-- C8: `withdrawAll` on an operator with zero staked LP balance returns
the "nothing to withdraw" result — success=false with the explanatory
message — with an empty transaction list and an empty write trace: neither
unstake nor any later withdrawal step is invoked. -/
theorem c8_withdrawAll_short_circuit (env : WithdrawEnv)
    (h : env.stakedBalanceR = .ok 0) :
    withdrawAll env =
      (⟨false, [], "0", some "No LP tokens staked - nothing to withdraw"⟩, []) := by
  have hpos : decStringPos (formatUnits 0 18) = false := by
    have hfu : formatUnits 0 18 = formatUnitsNat 0 18 := by
      unfold formatUnits
      rw [if_neg (by decide)]
      rfl
    rw [hfu]
    unfold decStringPos
    rw [formatUnitsNat_zero 18 (by decide)]
    decide
  simp only [withdrawAll, getWithdrawableAmount, getStakedBalance, h, hpos]
  simp

/-- C8 witness: the concrete zero-staked scenario. -/
theorem c8_withdrawAll_short_circuit_witness :
    withdrawAll withdrawZeroEnv =
      (⟨false, [], "0", some "No LP tokens staked - nothing to withdraw"⟩, []) :=
  c8_withdrawAll_short_circuit withdrawZeroEnv rfl

/-- C1 counterexample: failure at the `addLiquidity` write (call 9) after
the two step-5 liquidity approvals committed as real writes.  The real
writes committed before the failure are transfer "t1", stablecoin approval
"a1", swaps "s1" and "s2", and the WETH/VIRTUAL approvals "aw" and "av" —
but the returned `txHashes` is only ["t1","a1","s1","s2"]: it is **not**
the list of all committed real writes of the preceding steps (no approval
here was a no-op). -/
theorem c1_unrecorded_prefix_counterexample :
    ((executeFullDeposit
        (failDepositEnv 9 "boom" 1000 2000 7 8 55 99
          "t1" "a1" "s1" "s2" "aw" "av" "lq" "la" "st") "4" 50).2.map WriteOp.txId =
      ["t1", "a1", "s1", "s2", "aw", "av"]) ∧
    ((executeFullDeposit
        (failDepositEnv 9 "boom" 1000 2000 7 8 55 99
          "t1" "a1" "s1" "s2" "aw" "av" "lq" "la" "st") "4" 50).1.txHashes =
      ["t1", "a1", "s1", "s2"]) ∧
    (["t1", "a1", "s1", "s2"] : List Tx) ≠ ["t1", "a1", "s1", "s2", "aw", "av"] := by
  refine ⟨?_, ?_, by decide⟩ <;> decide

/-- C1 (amended): if the `k`-th remote call of the deposit workflow throws
(k ≥ 2, every allowance zero so each reached approval really writes), the
result has success=false, carries the raw error verbatim, its `txHashes`
is exactly the hash list the orchestrator accumulated — the transfer, the
stablecoin-approval write, the confirmed swaps, the add-liquidity write
once pushed, and the LP-approval write once pushed, but **never** the
step-5 WETH/VIRTUAL approval writes — and the committed write trace is
exactly the prefix up to the failing call: no compensating ("undo")
transaction is ever issued after the failure. -/
theorem c1_failure_prefix_no_compensation (k : Nat) (hk2 : 2 ≤ k) (hk : k ≤ 12)
    (e : Err) (s : String) (n : Int) (hs : parseUnits s 6 = some n) (hn : 0 < n)
    (wb vb l q1 q2 logs bps : Int) (hwb : 0 < wb) (hvb : 0 < vb) (hl : 0 < l)
    (t1 a1 s1 s2 aw av lq la st : Tx) :
    executeFullDeposit
        (failDepositEnv k e q1 q2 wb vb l logs t1 a1 s1 s2 aw av lq la st) s bps =
      (⟨false, failTxHashes k t1 a1 s1 s2 lq la, "0", some e⟩,
        failTrace k n wb vb l q1 q2 bps t1 a1 s1 s2 aw av lq la) := by
  have hn' : ¬ n ≤ (0 : Int) := not_le.mpr hn
  have hwb' : ¬ wb ≤ (0 : Int) := not_le.mpr hwb
  have hvb' : ¬ vb ≤ (0 : Int) := not_le.mpr hvb
  have hl' : ¬ l ≤ (0 : Int) := not_le.mpr hl
  interval_cases k <;>
    simp [executeFullDeposit, failDepositEnv, failTxHashes, failTrace, approveRun,
      swapRun, addLiquidityRun, hs, hn', hwb', hvb', hl']

/-- C1 witness: the stake write (call 12) throws after all prior calls
settled. -/
theorem c1_failure_prefix_witness :
    executeFullDeposit
        (failDepositEnv 12 "boom" 1000 2000 7 8 55 99
          "t1" "a1" "s1" "s2" "aw" "av" "lq" "la" "st") "4" 50 =
      (⟨false, failTxHashes 12 "t1" "a1" "s1" "s2" "lq" "la", "0", some "boom"⟩,
        failTrace 12 4000000 7 8 55 1000 2000 50
          "t1" "a1" "s1" "s2" "aw" "av" "lq" "la") :=
  c1_failure_prefix_no_compensation 12 (by decide) (by decide) "boom" "4" 4000000
    (by decide) (by decide) 7 8 55 1000 2000 99 50 (by decide) (by decide) (by decide)
    "t1" "a1" "s1" "s2" "aw" "av" "lq" "la" "st"

/-- C2 counterexample: a fully successful deposit in which every approval
was a real write.  The WETH approval write "aw" is committed on the ledger
(it is in the write trace), yet its identifier is not in the returned
`txHashes` — the returned list does not contain every real on-ledger
write. -/
theorem c2_unrecorded_write_counterexample :
    WriteOp.approveW .weth 7 "aw" ∈ (executeFullDeposit depositOkEnv "4" 50).2 ∧
      "aw" ∉ (executeFullDeposit depositOkEnv "4" 50).1.txHashes := by
  constructor <;> decide

/-- C2 (amended): on every successful run, the returned `txHashes` is
exactly the transfer, the stablecoin-approval set-write when one occurred,
the two swaps, the add-liquidity write, the LP-approval set-write when one
occurred, and the stake — no-op approvals contribute nothing, and the
step-5 WETH/VIRTUAL liquidity approvals and all reset-to-zero approval
writes are **excluded even when they were real committed writes** (they
appear only in the write trace). -/
theorem c2_success_recorded_hashes
    (uB uE : Int) (pr : Bool) (s : String) (n : Int) (hs : parseUnits s 6 = some n)
    (aU aW aV aL wb vb l q1 q2 logs bps : Int)
    (t1 ur a1 s1 s2 wr aw vr av lq lr la st : Tx) :
    (executeFullDeposit
      { userUsdcBalance := uB, agentEthWei := uE, poolResolved := pr,
        transferFromR := .ok t1, usdcAllowance := .ok aU, usdcResetR := .ok ur,
        usdcApproveR := .ok a1, wethQuote := .ok q1, wethSwapR := .ok s1,
        virtQuote := .ok q2, virtSwapR := .ok s2, wethBalanceR := .ok wb,
        virtBalanceR := .ok vb, wethAllowance := .ok aW, wethResetR := .ok wr,
        wethApproveR := .ok aw, virtAllowance := .ok aV, virtResetR := .ok vr,
        virtApproveR := .ok av, addLiqR := .ok lq, lpBalanceR := .ok l,
        receiptLogsLiquidity := logs, lpAllowance := .ok aL, lpResetR := .ok lr,
        lpApproveR := .ok la, stakeR := .ok st } s bps).1.txHashes =
      [t1] ++ (if n ≤ aU then [] else [a1]) ++ [s1, s2, lq] ++
        (if l ≤ aL then [] else [la]) ++ [st] ∧
    (executeFullDeposit
      { userUsdcBalance := uB, agentEthWei := uE, poolResolved := pr,
        transferFromR := .ok t1, usdcAllowance := .ok aU, usdcResetR := .ok ur,
        usdcApproveR := .ok a1, wethQuote := .ok q1, wethSwapR := .ok s1,
        virtQuote := .ok q2, virtSwapR := .ok s2, wethBalanceR := .ok wb,
        virtBalanceR := .ok vb, wethAllowance := .ok aW, wethResetR := .ok wr,
        wethApproveR := .ok aw, virtAllowance := .ok aV, virtResetR := .ok vr,
        virtApproveR := .ok av, addLiqR := .ok lq, lpBalanceR := .ok l,
        receiptLogsLiquidity := logs, lpAllowance := .ok aL, lpResetR := .ok lr,
        lpApproveR := .ok la, stakeR := .ok st } s bps).2 =
      [.transferFromW n t1] ++ apprWrites .usdc aU n ur a1 ++
        [.swapW (Int.tdiv n 2) (calculateMinAmount q1 bps) s1,
          .swapW (Int.tdiv n 2) (calculateMinAmount q2 bps) s2] ++
        apprWrites .weth aW wb wr aw ++ apprWrites .virt aV vb vr av ++
        [.addLiquidityW wb vb 0 0 lq] ++ apprWrites .lp aL l lr la ++
        [.stakeW l st] := by
  have h := deposit_ok_run uB uE pr s n hs aU aW aV aL wb vb l q1 q2 logs bps
    t1 ur a1 s1 s2 wr aw vr av lq lr la st
  rw [h]
  exact ⟨rfl, rfl⟩

/-- C2 witness: the concrete all-approvals-real scenario. -/
theorem c2_success_recorded_hashes_witness :
    (executeFullDeposit depositOkEnv "4" 50).1.txHashes =
      ["t1", "a1", "s1", "s2", "lq", "la", "st"] := by
  have h := c2_success_recorded_hashes (10 ^ 9) (10 ^ 17) true "4" 4000000 (by decide)
    0 0 0 0 7 8 55 1000 2000 99 50
    "t1" "ur" "a1" "s1" "s2" "wr" "aw" "vr" "av" "lq" "lr" "la" "st"
  have hd : depositOkEnv =
      { userUsdcBalance := 10 ^ 9, agentEthWei := 10 ^ 17, poolResolved := true,
        transferFromR := .ok "t1", usdcAllowance := .ok 0, usdcResetR := .ok "ur",
        usdcApproveR := .ok "a1", wethQuote := .ok 1000, wethSwapR := .ok "s1",
        virtQuote := .ok 2000, virtSwapR := .ok "s2", wethBalanceR := .ok 7,
        virtBalanceR := .ok 8, wethAllowance := .ok 0, wethResetR := .ok "wr",
        wethApproveR := .ok "aw", virtAllowance := .ok 0, virtResetR := .ok "vr",
        virtApproveR := .ok "av", addLiqR := .ok "lq", lpBalanceR := .ok 55,
        receiptLogsLiquidity := 99, lpAllowance := .ok 0, lpResetR := .ok "lr",
        lpApproveR := .ok "la", stakeR := .ok "st" } := rfl
  rw [hd]
  rw [h.1]
  decide

/-- C3 counterexample: a deposit of 5 base units (odd).  Both swaps submit
⌊5/2⌋ = 2 base units — not ⌊5/2⌋ and ⌈5/2⌉ — and the submitted amounts sum
to 4 ≠ 5: one base unit is left unswapped. -/
theorem c3_odd_split_counterexample :
    swapInputs (executeFullDeposit depositOkEnv "0.000005" 50).2 = [2, 2] ∧
      (2 : Int) + 2 ≠ 5 := by
  constructor <;> decide

/-- C3 (amended): on every successful run on a parsed input of `n` base
units, both swaps submit exactly `n / 2` (`bigint` truncated halving); for
even `n` the two submitted amounts sum to `n`, but for odd non-negative
`n` they sum to `n − 1` — the odd base unit is neither absorbed into
either half nor swapped. -/
theorem c3_swap_half_split
    (uB uE : Int) (pr : Bool) (s : String) (n : Int) (hs : parseUnits s 6 = some n)
    (aU aW aV aL wb vb l q1 q2 logs bps : Int)
    (t1 ur a1 s1 s2 wr aw vr av lq lr la st : Tx) :
    swapInputs (executeFullDeposit
      { userUsdcBalance := uB, agentEthWei := uE, poolResolved := pr,
        transferFromR := .ok t1, usdcAllowance := .ok aU, usdcResetR := .ok ur,
        usdcApproveR := .ok a1, wethQuote := .ok q1, wethSwapR := .ok s1,
        virtQuote := .ok q2, virtSwapR := .ok s2, wethBalanceR := .ok wb,
        virtBalanceR := .ok vb, wethAllowance := .ok aW, wethResetR := .ok wr,
        wethApproveR := .ok aw, virtAllowance := .ok aV, virtResetR := .ok vr,
        virtApproveR := .ok av, addLiqR := .ok lq, lpBalanceR := .ok l,
        receiptLogsLiquidity := logs, lpAllowance := .ok aL, lpResetR := .ok lr,
        lpApproveR := .ok la, stakeR := .ok st } s bps).2 =
      [Int.tdiv n 2, Int.tdiv n 2] ∧
    (n % 2 = 0 → Int.tdiv n 2 + Int.tdiv n 2 = n) ∧
    (0 ≤ n → n % 2 ≠ 0 → Int.tdiv n 2 + Int.tdiv n 2 = n - 1) := by
  refine ⟨?_, ?_, ?_⟩
  · rw [deposit_ok_run uB uE pr s n hs aU aW aV aL wb vb l q1 q2 logs bps
      t1 ur a1 s1 s2 wr aw vr av lq lr la st]
    simp [swapInputs, List.filterMap_append, swapInputs_apprWrites,
      show ∀ tok a amt r w, List.filterMap
        (fun op => match op with | WriteOp.swapW x _ _ => some x | _ => none)
        (apprWrites tok a amt r w) = [] from fun tok a amt r w => swapInputs_apprWrites tok a amt r w]
  · intro h
    obtain ⟨m, rfl⟩ : ∃ m, n = 2 * m := ⟨n / 2, by omega⟩
    rw [Int.mul_tdiv_cancel_left _ (by norm_num)]
    ring
  · intro h0 h
    rw [Int.tdiv_eq_ediv h0 (by norm_num)]
    omega

/-- C3 witness: the even scenario — 4,000,000 base units split into two
swaps of 2,000,000 each, summing to 4,000,000. -/
theorem c3_swap_half_split_witness :
    swapInputs (executeFullDeposit depositOkEnv "4" 50).2 =
        [Int.tdiv 4000000 2, Int.tdiv 4000000 2] ∧
      Int.tdiv 4000000 2 + Int.tdiv 4000000 2 = 4000000 := by
  have h := c3_swap_half_split (10 ^ 9) (10 ^ 17) true "4" 4000000 (by decide)
    0 0 0 0 7 8 55 1000 2000 99 50
    "t1" "ur" "a1" "s1" "s2" "wr" "aw" "vr" "av" "lq" "lr" "la" "st"
  exact ⟨h.1, h.2.1 (by decide)⟩

/-- C10: the decimal-string round trip of `withdrawAll` is lossless — for
every `bigint` x, `parseUnits(formatUnits(x, 18), 18) = x` — and
consequently, whenever the gauge reports a positive staked balance x and
the unstake write confirms, the first (and only first) write the
withdrawal submits is an unstake of exactly x wei: the operator's entire
staked balance, with no rounding loss. -/
theorem c10_roundtrip_unstake_exact :
    (∀ x : Int, parseUnits (formatUnits x 18) 18 = some x) ∧
    (∀ (env : WithdrawEnv) (x : Int) (utx : Tx),
      env.stakedBalanceR = .ok x → env.unstakeR = .ok utx → 0 < x →
      (withdrawAll env).2.head? = some (.unstakeW x utx)) := by
  constructor
  · intro x
    exact parseUnits_formatUnits x 18
  · intro env x utx hstk hu hx
    simp only [withdrawAll, getWithdrawableAmount, getStakedBalance, hstk,
      decStringPos_formatUnits_pos hx, if_true]
    exact executeWithdraw_head env _ x 50 utx (parseUnits_formatUnits x 18) hu

/-- C10 witness: staked balance of 3 wei — the submitted unstake amount is
exactly 3. -/
theorem c10_roundtrip_unstake_exact_witness :
    parseUnits (formatUnits 3 18) 18 = some 3 ∧
      (withdrawAll withdrawOkEnv).2.head? = some (.unstakeW 3 "u1") :=
  ⟨c10_roundtrip_unstake_exact.1 3,
    c10_roundtrip_unstake_exact.2 withdrawOkEnv 3 "u1" rfl rfl (by decide)⟩
